import Mathlib

/-!
Verification of the build-info injector (`scripts/get_build_info.py`).

The file embeds the script shallowly: the target file is a `List String`
of its lines (as produced by `readlines`, so lines normally keep their
trailing newline), Python `str.strip()` becomes `pyStrip`, the marker
scan loop of `main` becomes `scanMarkers`, the reversed anchor search
becomes `findLastAnchor`, and the whole read/compute/write step becomes
`inject` (an `Except` value: `.error` models the raised exception, in
which case the file on disk is untouched).  The git subprocess calls are
modelled by an outcome datatype `SubprocessOutcome` fed to
`get_git_commit_hash` / `get_git_branch`.
-/

set_option maxRecDepth 20000

deriving instance DecidableEq for Except

/-- Whitespace characters removed by Python `str.strip()` (ASCII range,
which covers every string this script manipulates). -/
def pyIsSpace (c : Char) : Bool :=
  c == ' ' || c == '\t' || c == '\n' || c == '\r' || c == '\x0b' || c == '\x0c'

/-- Strip `pyIsSpace` characters from both ends of a character list. -/
def stripChars (l : List Char) : List Char :=
  ((l.dropWhile pyIsSpace).reverse.dropWhile pyIsSpace).reverse

/-- Python `str.strip()`. -/
def pyStrip (s : String) : String :=
  ⟨stripChars s.data⟩

/-- `BEGIN_MARK` constant of the script. -/
def BEGIN_MARK : String := "// >>> AUTO-GENERATED BUILD INFO BEGIN"

/-- `END_MARK` constant of the script. -/
def END_MARK : String := "// <<< AUTO-GENERATED BUILD INFO END"

/-- The insertion anchor literal searched for by `main`. -/
def ANCHOR : String := "#endif"

/-- The three metadata strings `main` computes before building the block. -/
structure Metadata where
  hash : String
  branch : String
  ts : String
deriving DecidableEq

/-- The `#define FIRMWARE_BUILD_NUMBER "<hash>"` line of the generated block. -/
def defLineHash (h : String) : String :=
  "#define FIRMWARE_BUILD_NUMBER \"" ++ h ++ "\""

/-- The `#define GIT_BRANCH "<branch>"` line of the generated block. -/
def defLineBranch (b : String) : String :=
  "#define GIT_BRANCH \"" ++ b ++ "\""

/-- The `#define BUILD_TIMESTAMP_NUM "<ts>"` line of the generated block. -/
def defLineTs (t : String) : String :=
  "#define BUILD_TIMESTAMP_NUM \"" ++ t ++ "\""

/-- The `generated_block` list built in `main` (lines without newlines). -/
def generatedBlock (m : Metadata) : List String :=
  [BEGIN_MARK, defLineHash m.hash, defLineBranch m.branch, defLineTs m.ts, END_MARK]

/-- The `insert_lines` list of `main`: each block line with `"\n"` appended. -/
def insertLines (m : Metadata) : List String :=
  (generatedBlock m).map (fun l => l ++ "\n")

/-- The marker-scan loop of `main`: walks the lines with index `i`,
records the index of every line stripping to `BEGIN_MARK` in the
accumulator (`start`), and returns on the first line stripping to
`END_MARK` (the `break`). -/
def scanMarkers : List String → Nat → Option Nat → Option Nat × Option Nat
  | [], _, start => (start, none)
  | l :: ls, i, start =>
    if pyStrip l = BEGIN_MARK then scanMarkers ls (i + 1) (some i)
    else if pyStrip l = END_MARK then (start, some i)
    else scanMarkers ls (i + 1) start

/-- The `del lines[start:end+1]` step of `main`, performed only when the
scan produced both marker positions. -/
def removePrior (lines : List String) : List String :=
  match scanMarkers lines 0 none with
  | (some s, some e) => lines.take s ++ lines.drop (e + 1)
  | _ => lines

/-- Index of the last line satisfying `p` (the reversed-range search of
`main` stops at the highest matching index). -/
def lastIdxSat (p : String → Bool) : List String → Option Nat
  | [] => none
  | l :: ls =>
    match lastIdxSat p ls with
    | some k => some (k + 1)
    | none => if p l then some 0 else none

/-- The reversed scan of `main` locating the final `#endif` line. -/
def findLastAnchor (lines : List String) : Option Nat :=
  lastIdxSat (fun l => pyStrip l == ANCHOR) lines

/-- One run of the injector on the file's lines: remove a previously
injected block, locate the last anchor (raising `RuntimeError` when
there is none, before any write happens), and insert the fresh block
immediately before it. -/
def inject (m : Metadata) (lines : List String) : Except String (List String) :=
  match findLastAnchor (removePrior lines) with
  | none => Except.error "No #endif found in PIOConfig.h"
  | some i =>
      Except.ok ((removePrior lines).take i ++ insertLines m ++ (removePrior lines).drop i)

/-- State of the file on disk after running `main`'s injection step:
on success the computed lines are written back, on the raised
`RuntimeError` the write is never reached and the prior content stays. -/
def runInjector (m : Metadata) (disk : List String) : List String × Option String :=
  match inject m disk with
  | Except.ok out => (out, none)
  | Except.error msg => (disk, some msg)

/-- Line-count of the last anchor line measured from the end of the
file (`length - index`), `none` when no anchor line exists. -/
def anchorDistFromEnd (L : List String) : Option Nat :=
  (findLastAnchor L).map (fun i => L.length - i)

/-- Rendering of claim C3's words, for comparison with `removePrior`:
remove the inclusive range from the first begin-marker line to the
first end-marker line found at or after it. -/
def removePriorFirstBegin (lines : List String) : List String :=
  match lines.findIdx? (fun l => pyStrip l == BEGIN_MARK) with
  | none => lines
  | some s =>
    match (lines.drop s).findIdx? (fun l => pyStrip l == END_MARK) with
    | none => lines
    | some k => lines.take s ++ lines.drop (s + k + 1)

/-- Outcome of one `subprocess.run` git query: either the process
completed with a return code and captured stdout, or the call raised
(tool absent, execution error, or timeout expired). -/
inductive SubprocessOutcome where
  | completed (returncode : Int) (stdout : String)
  | toolAbsent
  | execError
  | timedOut
deriving DecidableEq

/-- `get_git_commit_hash`: strip the stdout on a zero exit status, and
fall back to `"dev"` on a non-zero status or any raised exception. -/
def get_git_commit_hash (o : SubprocessOutcome) : String :=
  match o with
  | SubprocessOutcome.completed rc s => if rc = 0 then pyStrip s else "dev"
  | _ => "dev"

/-- `get_git_branch`: strip the stdout on a zero exit status, remapping
the literal `HEAD` to `"detached"`; fall back to `"unknown"` on a
non-zero status or any raised exception. -/
def get_git_branch (o : SubprocessOutcome) : String :=
  match o with
  | SubprocessOutcome.completed rc s =>
      if rc = 0 then
        (if pyStrip s = "HEAD" then "detached" else pyStrip s)
      else "unknown"
  | _ => "unknown"

/-- C5: the resolver is total — every failure outcome (tool absent,
execution error, timeout, non-zero exit) yields the sentinels `"dev"`
and `"unknown"`, and a zero exit yields the stripped stdout. -/
theorem c5_fallback_totality (rc : Int) (s : String) :
    get_git_commit_hash SubprocessOutcome.toolAbsent = "dev" ∧
    get_git_commit_hash SubprocessOutcome.execError = "dev" ∧
    get_git_commit_hash SubprocessOutcome.timedOut = "dev" ∧
    get_git_branch SubprocessOutcome.toolAbsent = "unknown" ∧
    get_git_branch SubprocessOutcome.execError = "unknown" ∧
    get_git_branch SubprocessOutcome.timedOut = "unknown" ∧
    (rc ≠ 0 →
      get_git_commit_hash (SubprocessOutcome.completed rc s) = "dev" ∧
      get_git_branch (SubprocessOutcome.completed rc s) = "unknown") ∧
    get_git_commit_hash (SubprocessOutcome.completed 0 s) = pyStrip s := by
  refine ⟨rfl, rfl, rfl, rfl, rfl, rfl, fun h => ⟨?_, ?_⟩, ?_⟩
  · simp [get_git_commit_hash, h]
  · simp [get_git_branch, h]
  · simp [get_git_commit_hash]

/-- Witness for C5 at a concrete failing exit status and stdout. -/
theorem c5_fallback_totality_witness :
    get_git_commit_hash (SubprocessOutcome.completed 1 "deadbeef\n") = "dev" ∧
    get_git_branch (SubprocessOutcome.completed 1 "main\n") = "unknown" ∧
    get_git_commit_hash (SubprocessOutcome.completed 0 "deadbeef\n") = "deadbeef" := by
  refine ⟨((c5_fallback_totality 1 "deadbeef\n").2.2.2.2.2.2.1 (by decide)).1,
          ((c5_fallback_totality 1 "main\n").2.2.2.2.2.2.1 (by decide)).2, ?_⟩
  have h := (c5_fallback_totality 1 "deadbeef\n").2.2.2.2.2.2.2
  rw [h]
  decide

/-- C7: on a zero exit status, branch resolution strips the stdout and
remaps the detached-state literal `HEAD` to `"detached"`, returning any
other stripped output verbatim. -/
theorem c7_detached_remap (s : String) :
    get_git_branch (SubprocessOutcome.completed 0 s) =
      (if pyStrip s = "HEAD" then "detached" else pyStrip s) := by
  simp [get_git_branch]

/-- Lines of `removePrior lines` all come from `lines`. -/
theorem removePrior_subset (lines : List String) :
    removePrior lines ⊆ lines := by
  unfold removePrior
  rcases h : scanMarkers lines 0 none with ⟨s?, e?⟩
  cases s? with
  | none => exact fun a ha => ha
  | some s =>
      cases e? with
      | none => exact fun a ha => ha
      | some e =>
          intro a ha
          rcases List.mem_append.mp ha with h1 | h2
          · exact List.take_subset _ _ h1
          · exact List.drop_subset _ _ h2

/-- If no line satisfies `p`, `lastIdxSat` finds nothing. -/
theorem lastIdxSat_eq_none (p : String → Bool) (L : List String)
    (h : ∀ l ∈ L, p l = false) : lastIdxSat p L = none := by
  induction L with
  | nil => rfl
  | cons a L ih =>
      have ha := h a (List.mem_cons_self a L)
      have hL := ih (fun l hl => h l (List.mem_cons_of_mem a hl))
      simp [lastIdxSat, hL, ha]

/-- C4: a file with no line stripping to the anchor literal makes the
injector raise the missing-anchor `RuntimeError`; the raise happens
before the write, so the file on disk is exactly the prior content. -/
theorem c4_missing_anchor (m : Metadata) (F : List String)
    (h : ∀ l ∈ F, pyStrip l ≠ ANCHOR) :
    runInjector m F = (F, some "No #endif found in PIOConfig.h") := by
  have hnone : findLastAnchor (removePrior F) = none := by
    apply lastIdxSat_eq_none
    intro l hl
    have := h l (removePrior_subset F hl)
    simp [this]
  unfold runInjector inject
  rw [hnone]

/-- Witness for C4: a concrete two-line file with no `#endif`. -/
theorem c4_missing_anchor_witness :
    runInjector ⟨"abc123", "main", "20240101_120000"⟩ ["#ifndef A\n", "int x;\n"] =
      (["#ifndef A\n", "int x;\n"], some "No #endif found in PIOConfig.h") :=
  c4_missing_anchor _ _ (by decide)

/-- Two strings differing at some character position are distinct. -/
theorem string_ne_of_getElem (a b : String) (i : Nat) (c d : Char)
    (ha : a.data[i]? = some c) (hb : b.data[i]? = some d) (hne : c ≠ d) : a ≠ b := by
  intro h
  subst h
  rw [ha] at hb
  exact hne (Option.some.inj hb)

/-- Strings with equal character data are equal. -/
theorem str_ext {a b : String} (h : a.data = b.data) : a = b := by
  cases a; cases b; cases h; rfl

/-- Dropping while a failing predicate leaves a cons list unchanged. -/
theorem dropWhile_cons_of_neg {p : Char → Bool} {c : Char} {l : List Char}
    (h : p c = false) : (c :: l).dropWhile p = c :: l := by
  simp [List.dropWhile_cons, h]

/-- Stripping a newline-terminated list whose payload starts and ends
with non-whitespace yields the payload. -/
theorem stripChars_sandwich (c d : Char) (m : List Char)
    (hc : pyIsSpace c = false) (hd : pyIsSpace d = false) :
    stripChars ((c :: m ++ [d]) ++ ['\n']) = c :: m ++ [d] := by
  have hnl : pyIsSpace '\n' = true := by decide
  have h1 : ((c :: m ++ [d]) ++ ['\n'] : List Char) = c :: (m ++ [d] ++ ['\n']) := by
    simp
  have h2 : ((c :: m ++ [d]) ++ ['\n'] : List Char).dropWhile pyIsSpace
      = c :: (m ++ [d] ++ ['\n']) := by
    rw [h1]; exact dropWhile_cons_of_neg hc
  have h3 : (c :: (m ++ [d] ++ ['\n'])).reverse = '\n' :: d :: (c :: m).reverse := by
    simp
  have h4 : ('\n' :: d :: (c :: m).reverse).dropWhile pyIsSpace = d :: (c :: m).reverse := by
    rw [List.dropWhile_cons, if_pos hnl]
    exact dropWhile_cons_of_neg hd
  unfold stripChars
  rw [h2, h3, h4]
  simp

/-- Stripping `s ++ "\n"` returns `s` whenever `s`'s data is a
non-whitespace-delimited sandwich. -/
theorem pyStrip_sandwich (s : String) (c d : Char) (m : List Char)
    (hdata : s.data = c :: m ++ [d])
    (hc : pyIsSpace c = false) (hd : pyIsSpace d = false) :
    pyStrip (s ++ "\n") = s := by
  have h1 : (s ++ "\n").data = (c :: m ++ [d]) ++ ['\n'] := by
    show s.data ++ ("\n" : String).data = _
    rw [hdata]
  show String.mk (stripChars (s ++ "\n").data) = s
  rw [h1, stripChars_sandwich c d m hc hd, ← hdata]

/-- Character data of the hash definition line, sandwich form. -/
theorem data_defLineHash (h : String) :
    (defLineHash h).data
      = '#' :: (("define FIRMWARE_BUILD_NUMBER \"" : String).data ++ h.data) ++ ['\"'] := by
  show (("#define FIRMWARE_BUILD_NUMBER \"" : String).data ++ h.data)
        ++ ("\"" : String).data = _
  rw [show ("#define FIRMWARE_BUILD_NUMBER \"" : String).data
        = '#' :: ("define FIRMWARE_BUILD_NUMBER \"" : String).data from rfl]
  simp

/-- Character data of the hash definition line, left-literal form. -/
theorem data_defLineHash' (h : String) :
    (defLineHash h).data
      = ("#define FIRMWARE_BUILD_NUMBER \"" : String).data ++ (h.data ++ ['\"']) := by
  show (("#define FIRMWARE_BUILD_NUMBER \"" : String).data ++ h.data)
        ++ ("\"" : String).data = _
  simp

/-- Character data of the branch definition line, sandwich form. -/
theorem data_defLineBranch (b : String) :
    (defLineBranch b).data
      = '#' :: (("define GIT_BRANCH \"" : String).data ++ b.data) ++ ['\"'] := by
  show (("#define GIT_BRANCH \"" : String).data ++ b.data) ++ ("\"" : String).data = _
  rw [show ("#define GIT_BRANCH \"" : String).data
        = '#' :: ("define GIT_BRANCH \"" : String).data from rfl]
  simp

/-- Character data of the branch definition line, left-literal form. -/
theorem data_defLineBranch' (b : String) :
    (defLineBranch b).data
      = ("#define GIT_BRANCH \"" : String).data ++ (b.data ++ ['\"']) := by
  show (("#define GIT_BRANCH \"" : String).data ++ b.data) ++ ("\"" : String).data = _
  simp

/-- Character data of the timestamp definition line, sandwich form. -/
theorem data_defLineTs (t : String) :
    (defLineTs t).data
      = '#' :: (("define BUILD_TIMESTAMP_NUM \"" : String).data ++ t.data) ++ ['\"'] := by
  show (("#define BUILD_TIMESTAMP_NUM \"" : String).data ++ t.data)
        ++ ("\"" : String).data = _
  rw [show ("#define BUILD_TIMESTAMP_NUM \"" : String).data
        = '#' :: ("define BUILD_TIMESTAMP_NUM \"" : String).data from rfl]
  simp

/-- Character data of the timestamp definition line, left-literal form. -/
theorem data_defLineTs' (t : String) :
    (defLineTs t).data
      = ("#define BUILD_TIMESTAMP_NUM \"" : String).data ++ (t.data ++ ['\"']) := by
  show (("#define BUILD_TIMESTAMP_NUM \"" : String).data ++ t.data)
        ++ ("\"" : String).data = _
  simp

/-- Stripping the newline-terminated hash line recovers the line. -/
theorem pyStrip_defLineHash (h : String) :
    pyStrip (defLineHash h ++ "\n") = defLineHash h :=
  pyStrip_sandwich _ '#' '\"' _ (data_defLineHash h) (by decide) (by decide)

/-- Stripping the newline-terminated branch line recovers the line. -/
theorem pyStrip_defLineBranch (b : String) :
    pyStrip (defLineBranch b ++ "\n") = defLineBranch b :=
  pyStrip_sandwich _ '#' '\"' _ (data_defLineBranch b) (by decide) (by decide)

/-- Stripping the newline-terminated timestamp line recovers the line. -/
theorem pyStrip_defLineTs (t : String) :
    pyStrip (defLineTs t ++ "\n") = defLineTs t :=
  pyStrip_sandwich _ '#' '\"' _ (data_defLineTs t) (by decide) (by decide)

/-- Stripping the newline-terminated begin marker recovers the marker. -/
theorem pyStrip_beginMark : pyStrip (BEGIN_MARK ++ "\n") = BEGIN_MARK := by decide

/-- Stripping the newline-terminated end marker recovers the marker. -/
theorem pyStrip_endMark : pyStrip (END_MARK ++ "\n") = END_MARK := by decide

/-- Character 8 of the hash line is the `F` of `FIRMWARE`. -/
theorem getElem8_defLineHash (h : String) : (defLineHash h).data[8]? = some 'F' := by
  rw [data_defLineHash', List.getElem?_append_left (by decide)]
  decide

/-- Character 8 of the branch line is the `G` of `GIT`. -/
theorem getElem8_defLineBranch (b : String) : (defLineBranch b).data[8]? = some 'G' := by
  rw [data_defLineBranch', List.getElem?_append_left (by decide)]
  decide

/-- Character 8 of the timestamp line is the `B` of `BUILD`. -/
theorem getElem8_defLineTs (t : String) : (defLineTs t).data[8]? = some 'B' := by
  rw [data_defLineTs', List.getElem?_append_left (by decide)]
  decide

/-- Character 0 of the hash line is `#`. -/
theorem getElem0_defLineHash (h : String) : (defLineHash h).data[0]? = some '#' := by
  rw [data_defLineHash', List.getElem?_append_left (by decide)]
  decide

/-- Character 0 of the branch line is `#`. -/
theorem getElem0_defLineBranch (b : String) : (defLineBranch b).data[0]? = some '#' := by
  rw [data_defLineBranch', List.getElem?_append_left (by decide)]
  decide

/-- Character 0 of the timestamp line is `#`. -/
theorem getElem0_defLineTs (t : String) : (defLineTs t).data[0]? = some '#' := by
  rw [data_defLineTs', List.getElem?_append_left (by decide)]
  decide

/-- Character 1 of the hash line is `d`. -/
theorem getElem1_defLineHash (h : String) : (defLineHash h).data[1]? = some 'd' := by
  rw [data_defLineHash', List.getElem?_append_left (by decide)]
  decide

/-- Character 1 of the branch line is `d`. -/
theorem getElem1_defLineBranch (b : String) : (defLineBranch b).data[1]? = some 'd' := by
  rw [data_defLineBranch', List.getElem?_append_left (by decide)]
  decide

/-- Character 1 of the timestamp line is `d`. -/
theorem getElem1_defLineTs (t : String) : (defLineTs t).data[1]? = some 'd' := by
  rw [data_defLineTs', List.getElem?_append_left (by decide)]
  decide

/-- The hash line is never the begin marker. -/
theorem defLineHash_ne_begin (h : String) : defLineHash h ≠ BEGIN_MARK :=
  string_ne_of_getElem _ _ 0 '#' '/' (getElem0_defLineHash h) (by decide) (by decide)

/-- The hash line is never the end marker. -/
theorem defLineHash_ne_end (h : String) : defLineHash h ≠ END_MARK :=
  string_ne_of_getElem _ _ 0 '#' '/' (getElem0_defLineHash h) (by decide) (by decide)

/-- The hash line is never the anchor literal. -/
theorem defLineHash_ne_anchor (h : String) : defLineHash h ≠ ANCHOR :=
  string_ne_of_getElem _ _ 1 'd' 'e' (getElem1_defLineHash h) (by decide) (by decide)

/-- The branch line is never the begin marker. -/
theorem defLineBranch_ne_begin (b : String) : defLineBranch b ≠ BEGIN_MARK :=
  string_ne_of_getElem _ _ 0 '#' '/' (getElem0_defLineBranch b) (by decide) (by decide)

/-- The branch line is never the end marker. -/
theorem defLineBranch_ne_end (b : String) : defLineBranch b ≠ END_MARK :=
  string_ne_of_getElem _ _ 0 '#' '/' (getElem0_defLineBranch b) (by decide) (by decide)

/-- The branch line is never the anchor literal. -/
theorem defLineBranch_ne_anchor (b : String) : defLineBranch b ≠ ANCHOR :=
  string_ne_of_getElem _ _ 1 'd' 'e' (getElem1_defLineBranch b) (by decide) (by decide)

/-- The timestamp line is never the begin marker. -/
theorem defLineTs_ne_begin (t : String) : defLineTs t ≠ BEGIN_MARK :=
  string_ne_of_getElem _ _ 0 '#' '/' (getElem0_defLineTs t) (by decide) (by decide)

/-- The timestamp line is never the end marker. -/
theorem defLineTs_ne_end (t : String) : defLineTs t ≠ END_MARK :=
  string_ne_of_getElem _ _ 0 '#' '/' (getElem0_defLineTs t) (by decide) (by decide)

/-- The timestamp line is never the anchor literal. -/
theorem defLineTs_ne_anchor (t : String) : defLineTs t ≠ ANCHOR :=
  string_ne_of_getElem _ _ 1 'd' 'e' (getElem1_defLineTs t) (by decide) (by decide)

/-- Hash lines and branch lines never coincide. -/
theorem defLineHash_ne_defLineBranch (h b : String) : defLineHash h ≠ defLineBranch b :=
  string_ne_of_getElem _ _ 8 'F' 'G' (getElem8_defLineHash h) (getElem8_defLineBranch b)
    (by decide)

/-- Hash lines and timestamp lines never coincide. -/
theorem defLineHash_ne_defLineTs (h t : String) : defLineHash h ≠ defLineTs t :=
  string_ne_of_getElem _ _ 8 'F' 'B' (getElem8_defLineHash h) (getElem8_defLineTs t)
    (by decide)

/-- Branch lines and timestamp lines never coincide. -/
theorem defLineBranch_ne_defLineTs (b t : String) : defLineBranch b ≠ defLineTs t :=
  string_ne_of_getElem _ _ 8 'G' 'B' (getElem8_defLineBranch b) (getElem8_defLineTs t)
    (by decide)

/-- Equal hash lines carry equal hashes. -/
theorem defLineHash_inj {a b : String} (h : defLineHash a = defLineHash b) : a = b := by
  have hd : (defLineHash a).data = (defLineHash b).data := by rw [h]
  rw [data_defLineHash', data_defLineHash'] at hd
  exact str_ext (List.append_cancel_right (List.append_cancel_left hd))

/-- Equal branch lines carry equal branches. -/
theorem defLineBranch_inj {a b : String} (h : defLineBranch a = defLineBranch b) : a = b := by
  have hd : (defLineBranch a).data = (defLineBranch b).data := by rw [h]
  rw [data_defLineBranch', data_defLineBranch'] at hd
  exact str_ext (List.append_cancel_right (List.append_cancel_left hd))

/-- Equal timestamp lines carry equal timestamps. -/
theorem defLineTs_inj {a b : String} (h : defLineTs a = defLineTs b) : a = b := by
  have hd : (defLineTs a).data = (defLineTs b).data := by rw [h]
  rw [data_defLineTs', data_defLineTs'] at hd
  exact str_ext (List.append_cancel_right (List.append_cancel_left hd))

/-- Appending the newline terminator keeps distinct lines distinct. -/
theorem append_nl_ne {x y : String} (h : x ≠ y) : x ++ "\n" ≠ y ++ "\n" := by
  intro he
  apply h
  have hd : x.data ++ ("\n" : String).data = y.data ++ ("\n" : String).data := by
    show (x ++ "\n").data = (y ++ "\n").data
    rw [he]
  exact str_ext (List.append_cancel_right hd)

/-- Unfolding equation for `scanMarkers` on a cons cell. -/
theorem scanMarkers_cons (l : String) (ls : List String) (i : Nat) (st : Option Nat) :
    scanMarkers (l :: ls) i st =
      if pyStrip l = BEGIN_MARK then scanMarkers ls (i + 1) (some i)
      else if pyStrip l = END_MARK then (st, some i)
      else scanMarkers ls (i + 1) st := rfl

/-- Unfolding equation for `lastIdxSat` on a cons cell. -/
theorem lastIdxSat_cons (p : String → Bool) (a : String) (L : List String) :
    lastIdxSat p (a :: L) =
      match lastIdxSat p L with
      | some k => some (k + 1)
      | none => if p a then some 0 else none := rfl

/-- Element of an append at an offset past the left part. -/
theorem getD_append_right' (A B : List String) (j : Nat) (d : String) :
    (A ++ B).getD (A.length + j) d = B.getD j d := by
  simp [List.getD_eq_getElem?_getD, List.getElem?_append_right (Nat.le_add_right _ _)]

/-- Element of a drop, re-indexed into the original list. -/
theorem getD_drop' (L : List String) (i j : Nat) (d : String) :
    (L.drop i).getD j d = L.getD (i + j) d := by
  simp [List.getD_eq_getElem?_getD, List.getElem?_drop]

/-- Element of a take, within the kept range. -/
theorem getD_take' (L : List String) (n j : Nat) (d : String) (h : j < n) :
    (L.take n).getD j d = L.getD j d := by
  simp [List.getD_eq_getElem?_getD, List.getElem?_take, h]

/-- Scanning past a block of lines none of which strips to the end
marker just advances the index, carrying some accumulator. -/
theorem scanMarkers_append_noEnd :
    ∀ (A r : List String) (i : Nat) (st : Option Nat),
      (∀ l ∈ A, pyStrip l ≠ END_MARK) →
      ∃ st', scanMarkers (A ++ r) i st = scanMarkers r (i + A.length) st' := by
  intro A
  induction A with
  | nil =>
      intro r i st _
      exact ⟨st, by simp⟩
  | cons a A ih =>
      intro r i st hA
      have ha := hA a (List.mem_cons_self a A)
      have hA' : ∀ l ∈ A, pyStrip l ≠ END_MARK :=
        fun l hl => hA l (List.mem_cons_of_mem a hl)
      have hlen : i + 1 + A.length = i + (a :: A).length := by
        simp [List.length_cons]
        omega
      by_cases hb : pyStrip a = BEGIN_MARK
      · obtain ⟨st', hst⟩ := ih r (i + 1) (some i) hA'
        refine ⟨st', ?_⟩
        rw [List.cons_append, scanMarkers_cons, if_pos hb, hst, hlen]
      · obtain ⟨st', hst⟩ := ih r (i + 1) st hA'
        refine ⟨st', ?_⟩
        rw [List.cons_append, scanMarkers_cons, if_neg hb, if_neg ha, hst, hlen]

/-- Scanning the freshly generated block finds its own begin marker and,
four lines later, its own end marker, whatever came before. -/
theorem scanMarkers_insertLines (m : Metadata) (B : List String) (j : Nat) (st : Option Nat) :
    scanMarkers (insertLines m ++ B) j st = (some j, some (j + 4)) := by
  have hBne : (BEGIN_MARK : String) ≠ END_MARK := by decide
  have hEnb : (END_MARK : String) ≠ BEGIN_MARK := by decide
  show scanMarkers ((BEGIN_MARK ++ "\n") :: (defLineHash m.hash ++ "\n")
      :: (defLineBranch m.branch ++ "\n") :: (defLineTs m.ts ++ "\n")
      :: (END_MARK ++ "\n") :: B) j st = (some j, some (j + 4))
  rw [scanMarkers_cons, pyStrip_beginMark, if_pos rfl]
  rw [scanMarkers_cons, pyStrip_defLineHash,
      if_neg (defLineHash_ne_begin m.hash), if_neg (defLineHash_ne_end m.hash)]
  rw [scanMarkers_cons, pyStrip_defLineBranch,
      if_neg (defLineBranch_ne_begin m.branch), if_neg (defLineBranch_ne_end m.branch)]
  rw [scanMarkers_cons, pyStrip_defLineTs,
      if_neg (defLineTs_ne_begin m.ts), if_neg (defLineTs_ne_end m.ts)]
  rw [scanMarkers_cons, pyStrip_endMark, if_neg hEnb, if_pos rfl]

/-- A scan over lines free of end markers reports no end position. -/
theorem scanMarkers_no_end (L : List String) (i : Nat) (st : Option Nat)
    (h : ∀ l ∈ L, pyStrip l ≠ END_MARK) :
    ∃ st', scanMarkers L i st = (st', none) := by
  obtain ⟨st', hst⟩ := scanMarkers_append_noEnd L [] i st h
  exact ⟨st', by simpa using hst⟩

/-- A scan over lines free of begin markers, started with an empty
accumulator, reports no begin position. -/
theorem scanMarkers_fst_none :
    ∀ (L : List String) (i : Nat), (∀ l ∈ L, pyStrip l ≠ BEGIN_MARK) →
      ∃ e?, scanMarkers L i none = (none, e?) := by
  intro L
  induction L with
  | nil => intro i _; exact ⟨none, rfl⟩
  | cons a L ih =>
      intro i hL
      have ha := hL a (List.mem_cons_self a L)
      have hL' : ∀ l ∈ L, pyStrip l ≠ BEGIN_MARK :=
        fun l hl => hL l (List.mem_cons_of_mem a hl)
      rw [scanMarkers_cons, if_neg ha]
      by_cases he : pyStrip a = END_MARK
      · exact ⟨some i, by rw [if_pos he]⟩
      · obtain ⟨e?, hst⟩ := ih (i + 1) hL'
        exact ⟨e?, by rw [if_neg he, hst]⟩

/-- Without any end-marker line the removal step is a no-op. -/
theorem removePrior_of_no_end (L : List String)
    (h : ∀ l ∈ L, pyStrip l ≠ END_MARK) : removePrior L = L := by
  obtain ⟨st', hst⟩ := scanMarkers_no_end L 0 none h
  unfold removePrior
  rw [hst]
  cases st' <;> rfl

/-- Without any begin-marker line the removal step is a no-op. -/
theorem removePrior_of_no_begin (L : List String)
    (h : ∀ l ∈ L, pyStrip l ≠ BEGIN_MARK) : removePrior L = L := by
  obtain ⟨e?, hst⟩ := scanMarkers_fst_none L 0 h
  unfold removePrior
  rw [hst]

/-- Characterization of a successful marker scan: the reported end is
the first end-marker line, and the reported begin is either the last
begin-marker line before it, or (when no begin-marker precedes the end)
the accumulator the scan was started with. -/
theorem scanMarkers_spec :
    ∀ (L : List String) (i : Nat) (st : Option Nat) (s e : Nat),
      scanMarkers L i st = (some s, some e) →
      ∃ k, e = i + k ∧ k < L.length ∧ pyStrip (L.getD k "") = END_MARK ∧
        (∀ j, j < k → pyStrip (L.getD j "") ≠ END_MARK) ∧
        ((∃ jb, s = i + jb ∧ jb < k ∧ pyStrip (L.getD jb "") = BEGIN_MARK ∧
            ∀ j2, jb < j2 → j2 < k → pyStrip (L.getD j2 "") ≠ BEGIN_MARK)
          ∨ (st = some s ∧ ∀ j, j < k → pyStrip (L.getD j "") ≠ BEGIN_MARK)) := by
  intro L
  induction L with
  | nil =>
      intro i st s e h
      exact absurd (congrArg Prod.snd h) (by simp [scanMarkers])
  | cons a L ih =>
      intro i st s e h
      rw [scanMarkers_cons] at h
      by_cases hb : pyStrip a = BEGIN_MARK
      · rw [if_pos hb] at h
        obtain ⟨k, hk, hklen, hkend, hkbef, hstart⟩ := ih (i + 1) (some i) s e h
        refine ⟨k + 1, by omega, by simp [List.length_cons]; omega, by simpa using hkend,
          ?_, ?_⟩
        · intro j hj
          cases j with
          | zero =>
              show pyStrip ((a :: L).getD 0 "") ≠ END_MARK
              rw [List.getD_cons_zero, hb]
              decide
          | succ j =>
              rw [List.getD_cons_succ]
              exact hkbef j (by omega)
        · rcases hstart with ⟨jb, hjb1, hjb2, hjb3, hjb4⟩ | ⟨hst, hnb⟩
          · left
            refine ⟨jb + 1, by omega, by omega, by simpa using hjb3, ?_⟩
            intro j2 h1 h2
            cases j2 with
            | zero => omega
            | succ j2 =>
                rw [List.getD_cons_succ]
                exact hjb4 j2 (by omega) (by omega)
          · left
            have hsi : i = s := Option.some.inj hst
            refine ⟨0, by omega, by omega, by simpa using hb, ?_⟩
            intro j2 h1 h2
            cases j2 with
            | zero => omega
            | succ j2 =>
                rw [List.getD_cons_succ]
                exact hnb j2 (by omega)
      · rw [if_neg hb] at h
        by_cases he : pyStrip a = END_MARK
        · rw [if_pos he] at h
          have h1 : st = some s := congrArg Prod.fst h
          have hie : i = e := Option.some.inj (congrArg Prod.snd h)
          refine ⟨0, by omega, by simp [List.length_cons], by simpa using he,
            fun j hj => absurd hj (by omega), Or.inr ⟨h1, fun j hj => absurd hj (by omega)⟩⟩
        · rw [if_neg he] at h
          obtain ⟨k, hk, hklen, hkend, hkbef, hstart⟩ := ih (i + 1) st s e h
          refine ⟨k + 1, by omega, by simp [List.length_cons]; omega,
            by simpa using hkend, ?_, ?_⟩
          · intro j hj
            cases j with
            | zero =>
                rw [List.getD_cons_zero]
                exact he
            | succ j =>
                rw [List.getD_cons_succ]
                exact hkbef j (by omega)
          · rcases hstart with ⟨jb, hjb1, hjb2, hjb3, hjb4⟩ | ⟨hst, hnb⟩
            · left
              refine ⟨jb + 1, by omega, by omega, by simpa using hjb3, ?_⟩
              intro j2 h1 h2
              cases j2 with
              | zero => omega
              | succ j2 =>
                  rw [List.getD_cons_succ]
                  exact hjb4 j2 (by omega) (by omega)
            · right
              refine ⟨hst, ?_⟩
              intro j hj
              cases j with
              | zero =>
                  rw [List.getD_cons_zero]
                  exact hb
              | succ j =>
                  rw [List.getD_cons_succ]
                  exact hnb j (by omega)

/-- A last-index search returning nothing means no position satisfies. -/
theorem lastIdxSat_none_idx (p : String → Bool) :
    ∀ (L : List String), lastIdxSat p L = none →
      ∀ j, j < L.length → p (L.getD j "") = false := by
  intro L
  induction L with
  | nil => intro _ j hj; exact absurd hj (by simp)
  | cons a L ih =>
      intro h j hj
      rw [lastIdxSat_cons] at h
      rcases hL : lastIdxSat p L with _ | k
      · rw [hL] at h
        have hpa : p a = false := by
          by_contra hc
          rw [if_pos (by revert hc; cases p a <;> simp)] at h
          cases h
        cases j with
        | zero => simpa using hpa
        | succ j => rw [List.getD_cons_succ]; exact ih hL j (by simpa using hj)
      · rw [hL] at h
        cases h

/-- A search never misses a satisfying position. -/
theorem lastIdxSat_construct (p : String → Bool) :
    ∀ (L : List String) (k : Nat), k < L.length → p (L.getD k "") = true →
      (∀ j, k < j → j < L.length → p (L.getD j "") = false) →
      lastIdxSat p L = some k := by
  intro L
  induction L with
  | nil => intro k hk; exact absurd hk (by simp)
  | cons a L ih =>
      intro k hk hpk hafter
      cases k with
      | zero =>
          have hnone : lastIdxSat p L = none := by
            apply lastIdxSat_eq_none
            intro l hl
            obtain ⟨j, hj, rfl⟩ := List.getElem_of_mem hl
            have := hafter (j + 1) (by omega) (by simpa using hj)
            rw [List.getD_cons_succ] at this
            rw [List.getD_eq_getElem?_getD] at this
            simpa [List.getElem?_eq_getElem hj] using this
          rw [lastIdxSat_cons, hnone, if_pos (by simpa using hpk)]
      | succ k =>
          have hL : lastIdxSat p L = some k := by
            apply ih k (by simpa using hk) (by simpa using hpk)
            intro j h1 h2
            have := hafter (j + 1) (by omega) (by simpa using h2)
            simpa using this
          rw [lastIdxSat_cons, hL]

/-- Characterization of a successful last-index search. -/
theorem lastIdxSat_spec (p : String → Bool) :
    ∀ (L : List String) (k : Nat), lastIdxSat p L = some k →
      k < L.length ∧ p (L.getD k "") = true ∧
        ∀ j, k < j → j < L.length → p (L.getD j "") = false := by
  intro L
  induction L with
  | nil => intro k h; cases h
  | cons a L ih =>
      intro k h
      rw [lastIdxSat_cons] at h
      rcases hL : lastIdxSat p L with _ | k'
      · rw [hL] at h
        by_cases hpa : p a = true
        · rw [if_pos hpa] at h
          obtain rfl : (0 : Nat) = k := Option.some.inj h
          refine ⟨by simp, by simpa using hpa, ?_⟩
          intro j h1 h2
          cases j with
          | zero => omega
          | succ j =>
              rw [List.getD_cons_succ]
              exact lastIdxSat_none_idx p L hL j (by simpa using h2)
        · rw [if_neg hpa] at h
          cases h
      · rw [hL] at h
        obtain rfl : k' + 1 = k := Option.some.inj h
        obtain ⟨h1, h2, h3⟩ := ih k' hL
        refine ⟨by simp [List.length_cons]; omega, by simpa using h2, ?_⟩
        intro j ha hb
        cases j with
        | zero => omega
        | succ j =>
            rw [List.getD_cons_succ]
            exact h3 j (by omega) (by simpa using hb)

/-- Last-index search distributes over append: a hit in the right part
wins, else the left part is searched. -/
theorem lastIdxSat_append (p : String → Bool) :
    ∀ (A B : List String), lastIdxSat p (A ++ B) =
      match lastIdxSat p B with
      | some k => some (A.length + k)
      | none => lastIdxSat p A := by
  intro A B
  induction A with
  | nil =>
      rcases hB : lastIdxSat p B with _ | k
      · simp [hB, lastIdxSat]
      · simp [hB]
  | cons a A ih =>
      rw [List.cons_append, lastIdxSat_cons, ih, lastIdxSat_cons]
      rcases hB : lastIdxSat p B with _ | k
      · rfl
      · have : A.length + k + 1 = (a :: A).length + k := by
          simp [List.length_cons]
          omega
        simp [this]

/-- The generated block always has five lines. -/
theorem insertLines_length (m : Metadata) : (insertLines m).length = 5 := by
  simp [insertLines, generatedBlock]

/-- Reduction of `inject` once the anchor position is known. -/
theorem inject_eq_of_anchor (m : Metadata) (F : List String) (i : Nat)
    (ha : findLastAnchor (removePrior F) = some i) :
    inject m F = Except.ok
      ((removePrior F).take i ++ insertLines m ++ (removePrior F).drop i) := by
  unfold inject
  rw [ha]

/-- The last anchor of the file after insertion sits five lines further
along than the anchor the insertion targeted. -/
theorem findLastAnchor_out (m : Metadata) (R : List String) (i : Nat)
    (ha : findLastAnchor R = some i) :
    findLastAnchor (R.take i ++ insertLines m ++ R.drop i) = some (i + 5) := by
  obtain ⟨hlt, hpi, hafter⟩ := lastIdxSat_spec _ R i ha
  have hdrop : lastIdxSat (fun l => pyStrip l == ANCHOR) (R.drop i) = some 0 := by
    apply lastIdxSat_construct
    · rw [List.length_drop]; omega
    · rw [getD_drop']
      simpa using hpi
    · intro j h1 h2
      rw [List.length_drop] at h2
      rw [getD_drop']
      exact hafter (i + j) (by omega) (by omega)
  have hmid : lastIdxSat (fun l => pyStrip l == ANCHOR) (insertLines m ++ R.drop i)
      = some 5 := by
    rw [lastIdxSat_append, hdrop]
    simp [insertLines_length]
  rw [findLastAnchor, List.append_assoc, lastIdxSat_append, hmid]
  have hti : (R.take i).length = i := List.length_take_of_le (le_of_lt hlt)
  simp [hti]

/-- Scanning the file produced by an insertion whose preserved head
holds no end-marker line finds exactly the inserted block, so the
removal step restores the pre-insertion lines. -/
theorem removePrior_out (m : Metadata) (R : List String) (i : Nat)
    (hEnd : ∀ l ∈ R.take i, pyStrip l ≠ END_MARK) :
    removePrior (R.take i ++ insertLines m ++ R.drop i) = R := by
  obtain ⟨st', hsc⟩ :=
    scanMarkers_append_noEnd (R.take i) (insertLines m ++ R.drop i) 0 none hEnd
  rw [scanMarkers_insertLines] at hsc
  simp only [Nat.zero_add] at hsc
  unfold removePrior
  rw [List.append_assoc, hsc]
  show (R.take i ++ (insertLines m ++ R.drop i)).take (R.take i).length
      ++ (R.take i ++ (insertLines m ++ R.drop i)).drop ((R.take i).length + 4 + 1) = R
  have h5 : (R.take i).length + 4 + 1 = (R.take i).length + 5 := rfl
  rw [h5, List.take_left, List.drop_append,
      show (5 : Nat) = (insertLines m).length from (insertLines_length m).symm,
      List.drop_left]
  exact List.take_append_drop i R

/-- C1 (amended): injection is idempotent for every metadata triple and
every target file that still has an anchor after prior-block removal,
provided no line stripping to the end marker survives before the
insertion point (stray end-marker lines there defeat the second run's
block detection; legitimately-authored files have none). -/
theorem c1_idempotence_amended (m : Metadata) (F : List String) (i : Nat)
    (ha : findLastAnchor (removePrior F) = some i)
    (hEnd : ∀ l ∈ (removePrior F).take i, pyStrip l ≠ END_MARK) :
    (inject m F).bind (inject m) = inject m F := by
  rw [inject_eq_of_anchor m F i ha]
  show inject m ((removePrior F).take i ++ insertLines m ++ (removePrior F).drop i)
      = Except.ok ((removePrior F).take i ++ insertLines m ++ (removePrior F).drop i)
  unfold inject
  rw [removePrior_out m (removePrior F) i hEnd, ha]

/-- Witness for C1 on a concrete clean header file. -/
theorem c1_idempotence_amended_witness :
    (inject ⟨"abc123", "main", "20240101_120000"⟩ ["#ifndef A\n", "#endif\n"]).bind
        (inject ⟨"abc123", "main", "20240101_120000"⟩)
      = inject ⟨"abc123", "main", "20240101_120000"⟩ ["#ifndef A\n", "#endif\n"] :=
  c1_idempotence_amended ⟨"abc123", "main", "20240101_120000"⟩
    ["#ifndef A\n", "#endif\n"] 1 (by decide) (by decide)

/-- C1 as stated is false: a file containing an anchor but also a stray
end-marker line is changed again by the second run (the scan stops at
the stray end marker, finds no begin before it, removes nothing, and
inserts a duplicate block). -/
theorem c1_idempotence_counterexample :
    (∃ l ∈ (["// <<< AUTO-GENERATED BUILD INFO END\n", "#endif\n"] : List String),
        pyStrip l = ANCHOR) ∧
    (inject ⟨"abc123", "main", "20240101_120000"⟩
          ["// <<< AUTO-GENERATED BUILD INFO END\n", "#endif\n"]).bind
        (inject ⟨"abc123", "main", "20240101_120000"⟩)
      ≠ inject ⟨"abc123", "main", "20240101_120000"⟩
          ["// <<< AUTO-GENERATED BUILD INFO END\n", "#endif\n"] := by
  constructor
  · exact ⟨"#endif\n", by decide, by decide⟩
  · decide

/-- The generated block contains exactly one begin-marker line. -/
theorem filter_begin_insertLines (m : Metadata) :
    (insertLines m).filter (fun l => pyStrip l == BEGIN_MARK) = [BEGIN_MARK ++ "\n"] := by
  show ((BEGIN_MARK ++ "\n") :: (defLineHash m.hash ++ "\n")
      :: (defLineBranch m.branch ++ "\n") :: (defLineTs m.ts ++ "\n")
      :: (END_MARK ++ "\n") :: []).filter (fun l => pyStrip l == BEGIN_MARK)
      = [BEGIN_MARK ++ "\n"]
  simp [List.filter_cons, pyStrip_beginMark, pyStrip_defLineHash, pyStrip_defLineBranch,
    pyStrip_defLineTs, pyStrip_endMark, defLineHash_ne_begin, defLineBranch_ne_begin,
    defLineTs_ne_begin, show (END_MARK : String) ≠ BEGIN_MARK by decide]

/-- The generated block contains exactly one end-marker line. -/
theorem filter_end_insertLines (m : Metadata) :
    (insertLines m).filter (fun l => pyStrip l == END_MARK) = [END_MARK ++ "\n"] := by
  show ((BEGIN_MARK ++ "\n") :: (defLineHash m.hash ++ "\n")
      :: (defLineBranch m.branch ++ "\n") :: (defLineTs m.ts ++ "\n")
      :: (END_MARK ++ "\n") :: []).filter (fun l => pyStrip l == END_MARK)
      = [END_MARK ++ "\n"]
  simp [List.filter_cons, pyStrip_beginMark, pyStrip_defLineHash, pyStrip_defLineBranch,
    pyStrip_defLineTs, pyStrip_endMark, defLineHash_ne_end, defLineBranch_ne_end,
    defLineTs_ne_end, show (BEGIN_MARK : String) ≠ END_MARK by decide]

/-- C2 (amended): injecting metadata with componentwise-distinct values
twice in a row, into a file whose post-removal lines carry no marker
lines and none of the first metadata's definition lines, yields exactly
one begin-marker line, exactly one end-marker line, the second
metadata's block (visible as the inserted `insertLines m2` segment), and
no definition line of the first metadata. -/
theorem c2_replacement_amended (m1 m2 : Metadata) (F : List String) (i : Nat)
    (hmark : ∀ l ∈ removePrior F, pyStrip l ≠ BEGIN_MARK ∧ pyStrip l ≠ END_MARK)
    (ha : findLastAnchor (removePrior F) = some i)
    (hclean : ∀ l ∈ removePrior F, l ≠ defLineHash m1.hash ++ "\n" ∧
        l ≠ defLineBranch m1.branch ++ "\n" ∧ l ≠ defLineTs m1.ts ++ "\n")
    (hd1 : m1.hash ≠ m2.hash) (hd2 : m1.branch ≠ m2.branch) (hd3 : m1.ts ≠ m2.ts) :
    (inject m1 F).bind (inject m2)
        = Except.ok ((removePrior F).take i ++ insertLines m2 ++ (removePrior F).drop i) ∧
    (((removePrior F).take i ++ insertLines m2 ++ (removePrior F).drop i).filter
        (fun l => pyStrip l == BEGIN_MARK)).length = 1 ∧
    (((removePrior F).take i ++ insertLines m2 ++ (removePrior F).drop i).filter
        (fun l => pyStrip l == END_MARK)).length = 1 ∧
    (∀ l ∈ (removePrior F).take i ++ insertLines m2 ++ (removePrior F).drop i,
        l ≠ defLineHash m1.hash ++ "\n" ∧ l ≠ defLineBranch m1.branch ++ "\n" ∧
        l ≠ defLineTs m1.ts ++ "\n") := by
  have hEnd1 : ∀ l ∈ (removePrior F).take i, pyStrip l ≠ END_MARK :=
    fun l hl => (hmark l (List.take_subset i _ hl)).2
  have hT : ((removePrior F).take i).filter (fun l => pyStrip l == BEGIN_MARK) = [] := by
    rw [List.filter_eq_nil_iff]
    intro l hl
    simp [(hmark l (List.take_subset i _ hl)).1]
  have hD : ((removePrior F).drop i).filter (fun l => pyStrip l == BEGIN_MARK) = [] := by
    rw [List.filter_eq_nil_iff]
    intro l hl
    simp [(hmark l (List.drop_subset i _ hl)).1]
  have hT' : ((removePrior F).take i).filter (fun l => pyStrip l == END_MARK) = [] := by
    rw [List.filter_eq_nil_iff]
    intro l hl
    simp [(hmark l (List.take_subset i _ hl)).2]
  have hD' : ((removePrior F).drop i).filter (fun l => pyStrip l == END_MARK) = [] := by
    rw [List.filter_eq_nil_iff]
    intro l hl
    simp [(hmark l (List.drop_subset i _ hl)).2]
  refine ⟨?_, ?_, ?_, ?_⟩
  · rw [inject_eq_of_anchor m1 F i ha]
    show inject m2 ((removePrior F).take i ++ insertLines m1 ++ (removePrior F).drop i)
        = Except.ok ((removePrior F).take i ++ insertLines m2 ++ (removePrior F).drop i)
    unfold inject
    rw [removePrior_out m1 (removePrior F) i hEnd1, ha]
  · rw [List.filter_append, List.filter_append, filter_begin_insertLines, hT, hD]
    rfl
  · rw [List.filter_append, List.filter_append, filter_end_insertLines, hT', hD']
    rfl
  · intro l hl
    rcases List.mem_append.mp hl with hl1 | hlD
    · rcases List.mem_append.mp hl1 with hlT | hlI
      · exact hclean l (List.take_subset i _ hlT)
      · have : l = BEGIN_MARK ++ "\n" ∨ l = defLineHash m2.hash ++ "\n" ∨
            l = defLineBranch m2.branch ++ "\n" ∨ l = defLineTs m2.ts ++ "\n" ∨
            l = END_MARK ++ "\n" := by
          simpa [insertLines, generatedBlock] using hlI
        rcases this with rfl | rfl | rfl | rfl | rfl
        · exact ⟨append_nl_ne (Ne.symm (defLineHash_ne_begin m1.hash)),
            append_nl_ne (Ne.symm (defLineBranch_ne_begin m1.branch)),
            append_nl_ne (Ne.symm (defLineTs_ne_begin m1.ts))⟩
        · exact ⟨append_nl_ne (fun he => hd1 (defLineHash_inj he).symm),
            append_nl_ne (defLineHash_ne_defLineBranch m2.hash m1.branch),
            append_nl_ne (defLineHash_ne_defLineTs m2.hash m1.ts)⟩
        · exact ⟨append_nl_ne (Ne.symm (defLineHash_ne_defLineBranch m1.hash m2.branch)),
            append_nl_ne (fun he => hd2 (defLineBranch_inj he).symm),
            append_nl_ne (defLineBranch_ne_defLineTs m2.branch m1.ts)⟩
        · exact ⟨append_nl_ne (Ne.symm (defLineHash_ne_defLineTs m1.hash m2.ts)),
            append_nl_ne (Ne.symm (defLineBranch_ne_defLineTs m1.branch m2.ts)),
            append_nl_ne (fun he => hd3 (defLineTs_inj he).symm)⟩
        · exact ⟨append_nl_ne (Ne.symm (defLineHash_ne_end m1.hash)),
            append_nl_ne (Ne.symm (defLineBranch_ne_end m1.branch)),
            append_nl_ne (Ne.symm (defLineTs_ne_end m1.ts))⟩
    · exact hclean l (List.drop_subset i _ hlD)

/-- Witness for C2 on the standard re-injection case: the input file's
generated block already carries the first metadata's values, the
removal step deletes it, and the post-removal lines are clean. -/
theorem c2_replacement_amended_witness :
    (inject ⟨"h1", "b1", "t1"⟩
          ["#ifndef A\n", BEGIN_MARK ++ "\n", defLineHash "h1" ++ "\n",
            defLineBranch "b1" ++ "\n", defLineTs "t1" ++ "\n", END_MARK ++ "\n",
            "#endif\n"]).bind (inject ⟨"h2", "b2", "t2"⟩)
        = Except.ok ((removePrior ["#ifndef A\n", BEGIN_MARK ++ "\n",
              defLineHash "h1" ++ "\n", defLineBranch "b1" ++ "\n",
              defLineTs "t1" ++ "\n", END_MARK ++ "\n", "#endif\n"]).take 1
            ++ insertLines ⟨"h2", "b2", "t2"⟩
            ++ (removePrior ["#ifndef A\n", BEGIN_MARK ++ "\n",
                defLineHash "h1" ++ "\n", defLineBranch "b1" ++ "\n",
                defLineTs "t1" ++ "\n", END_MARK ++ "\n", "#endif\n"]).drop 1) ∧
    (((removePrior ["#ifndef A\n", BEGIN_MARK ++ "\n", defLineHash "h1" ++ "\n",
          defLineBranch "b1" ++ "\n", defLineTs "t1" ++ "\n", END_MARK ++ "\n",
          "#endif\n"]).take 1 ++ insertLines ⟨"h2", "b2", "t2"⟩
        ++ (removePrior ["#ifndef A\n", BEGIN_MARK ++ "\n", defLineHash "h1" ++ "\n",
            defLineBranch "b1" ++ "\n", defLineTs "t1" ++ "\n", END_MARK ++ "\n",
            "#endif\n"]).drop 1).filter
        (fun l => pyStrip l == BEGIN_MARK)).length = 1 ∧
    (((removePrior ["#ifndef A\n", BEGIN_MARK ++ "\n", defLineHash "h1" ++ "\n",
          defLineBranch "b1" ++ "\n", defLineTs "t1" ++ "\n", END_MARK ++ "\n",
          "#endif\n"]).take 1 ++ insertLines ⟨"h2", "b2", "t2"⟩
        ++ (removePrior ["#ifndef A\n", BEGIN_MARK ++ "\n", defLineHash "h1" ++ "\n",
            defLineBranch "b1" ++ "\n", defLineTs "t1" ++ "\n", END_MARK ++ "\n",
            "#endif\n"]).drop 1).filter
        (fun l => pyStrip l == END_MARK)).length = 1 ∧
    (∀ l ∈ (removePrior ["#ifndef A\n", BEGIN_MARK ++ "\n", defLineHash "h1" ++ "\n",
          defLineBranch "b1" ++ "\n", defLineTs "t1" ++ "\n", END_MARK ++ "\n",
          "#endif\n"]).take 1 ++ insertLines ⟨"h2", "b2", "t2"⟩
        ++ (removePrior ["#ifndef A\n", BEGIN_MARK ++ "\n", defLineHash "h1" ++ "\n",
            defLineBranch "b1" ++ "\n", defLineTs "t1" ++ "\n", END_MARK ++ "\n",
            "#endif\n"]).drop 1,
        l ≠ defLineHash "h1" ++ "\n" ∧ l ≠ defLineBranch "b1" ++ "\n" ∧
        l ≠ defLineTs "t1" ++ "\n") :=
  c2_replacement_amended ⟨"h1", "b1", "t1"⟩ ⟨"h2", "b2", "t2"⟩
    ["#ifndef A\n", BEGIN_MARK ++ "\n", defLineHash "h1" ++ "\n",
      defLineBranch "b1" ++ "\n", defLineTs "t1" ++ "\n", END_MARK ++ "\n",
      "#endif\n"] 1 (by decide) (by decide) (by decide)
    (by decide) (by decide) (by decide)

/-- C2 as stated is false: with a stray end-marker line in the file, the
second injection fails to remove the first block, leaving two
begin-marker lines and the first metadata's definition lines behind. -/
theorem c2_replacement_counterexample :
    (inject ⟨"h1", "b1", "t1"⟩
          ["// <<< AUTO-GENERATED BUILD INFO END\n", "#endif\n"]).bind
        (inject ⟨"h2", "b2", "t2"⟩)
      = Except.ok
          ["// <<< AUTO-GENERATED BUILD INFO END\n",
           BEGIN_MARK ++ "\n", defLineHash "h1" ++ "\n", defLineBranch "b1" ++ "\n",
           defLineTs "t1" ++ "\n", END_MARK ++ "\n",
           BEGIN_MARK ++ "\n", defLineHash "h2" ++ "\n", defLineBranch "b2" ++ "\n",
           defLineTs "t2" ++ "\n", END_MARK ++ "\n", "#endif\n"] ∧
    ((["// <<< AUTO-GENERATED BUILD INFO END\n",
        BEGIN_MARK ++ "\n", defLineHash "h1" ++ "\n", defLineBranch "b1" ++ "\n",
        defLineTs "t1" ++ "\n", END_MARK ++ "\n",
        BEGIN_MARK ++ "\n", defLineHash "h2" ++ "\n", defLineBranch "b2" ++ "\n",
        defLineTs "t2" ++ "\n", END_MARK ++ "\n", "#endif\n"] : List String).filter
        (fun l => pyStrip l == BEGIN_MARK)).length = 2 ∧
    (defLineHash "h1" ++ "\n")
      ∈ (["// <<< AUTO-GENERATED BUILD INFO END\n",
          BEGIN_MARK ++ "\n", defLineHash "h1" ++ "\n", defLineBranch "b1" ++ "\n",
          defLineTs "t1" ++ "\n", END_MARK ++ "\n",
          BEGIN_MARK ++ "\n", defLineHash "h2" ++ "\n", defLineBranch "b2" ++ "\n",
          defLineTs "t2" ++ "\n", END_MARK ++ "\n", "#endif\n"] : List String) := by
  refine ⟨by decide, by decide, ?_⟩
  decide

/-- C3 (amended): when the scan finds a marker pair, the removed block
is the inclusive range from the LAST begin-marker line strictly before
the first end-marker line in the file to that first end-marker line —
not from the first begin-marker; no other lines are removed. -/
theorem c3_marker_selection_amended (L : List String) (s e : Nat)
    (h : scanMarkers L 0 none = (some s, some e)) :
    s < e ∧ e < L.length ∧
    pyStrip (L.getD e "") = END_MARK ∧
    (∀ j, j < e → pyStrip (L.getD j "") ≠ END_MARK) ∧
    pyStrip (L.getD s "") = BEGIN_MARK ∧
    (∀ j, s < j → j < e → pyStrip (L.getD j "") ≠ BEGIN_MARK) ∧
    removePrior L = L.take s ++ L.drop (e + 1) := by
  obtain ⟨k, hk, hklen, hkend, hkbef, hstart⟩ := scanMarkers_spec L 0 none s e h
  rcases hstart with ⟨jb, hjb1, hjb2, hjb3, hjb4⟩ | ⟨hst, _⟩
  · have hek : e = k := by omega
    have hsj : s = jb := by omega
    refine ⟨by omega, by omega, ?_, ?_, ?_, ?_, ?_⟩
    · rw [hek]; exact hkend
    · intro j hj; exact hkbef j (by omega)
    · rw [hsj]; exact hjb3
    · intro j h1 h2; rw [hsj] at h1; exact hjb4 j (by omega) (by omega)
    · unfold removePrior; rw [h]
  · exact absurd hst (by simp)

/-- Witness for C3 on a file with two begin markers before the end
marker: the scan selects the second one. -/
theorem c3_marker_selection_amended_witness :
    pyStrip (([BEGIN_MARK ++ "\n", BEGIN_MARK ++ "\n", END_MARK ++ "\n",
        "#endif\n"] : List String).getD 1 "") = BEGIN_MARK ∧
    removePrior [BEGIN_MARK ++ "\n", BEGIN_MARK ++ "\n", END_MARK ++ "\n", "#endif\n"]
      = ([BEGIN_MARK ++ "\n", BEGIN_MARK ++ "\n", END_MARK ++ "\n",
          "#endif\n"] : List String).take 1
        ++ ([BEGIN_MARK ++ "\n", BEGIN_MARK ++ "\n", END_MARK ++ "\n",
            "#endif\n"] : List String).drop (2 + 1) :=
  ⟨(c3_marker_selection_amended
      [BEGIN_MARK ++ "\n", BEGIN_MARK ++ "\n", END_MARK ++ "\n", "#endif\n"] 1 2
      (by decide)).2.2.2.2.1,
   (c3_marker_selection_amended
      [BEGIN_MARK ++ "\n", BEGIN_MARK ++ "\n", END_MARK ++ "\n", "#endif\n"] 1 2
      (by decide)).2.2.2.2.2.2⟩

/-- C3 as stated is false: with two begin markers before the first end
marker, the code removes from the second begin marker, not the first,
so the first begin-marker line survives. -/
theorem c3_marker_selection_counterexample :
    removePrior [BEGIN_MARK ++ "\n", "x\n", BEGIN_MARK ++ "\n", END_MARK ++ "\n",
        "#endif\n"]
      = [BEGIN_MARK ++ "\n", "x\n", "#endif\n"] ∧
    removePriorFirstBegin [BEGIN_MARK ++ "\n", "x\n", BEGIN_MARK ++ "\n",
        END_MARK ++ "\n", "#endif\n"]
      = ["#endif\n"] ∧
    removePrior [BEGIN_MARK ++ "\n", "x\n", BEGIN_MARK ++ "\n", END_MARK ++ "\n",
        "#endif\n"]
      ≠ removePriorFirstBegin [BEGIN_MARK ++ "\n", "x\n", BEGIN_MARK ++ "\n",
          END_MARK ++ "\n", "#endif\n"] := by
  exact ⟨by decide, by decide, by decide⟩

/-- C9: when only one of the two marker kinds occurs in an
anchor-containing file, nothing is removed, the fresh block is inserted
before the last anchor, and every original line — including the stray
marker line — is still present in the output. -/
theorem c9_single_marker (m : Metadata) (F : List String) (i : Nat)
    (ha : findLastAnchor F = some i)
    (h : (∀ l ∈ F, pyStrip l ≠ END_MARK) ∨ (∀ l ∈ F, pyStrip l ≠ BEGIN_MARK)) :
    removePrior F = F ∧
    inject m F = Except.ok (F.take i ++ insertLines m ++ F.drop i) ∧
    ∀ l ∈ F, l ∈ F.take i ++ insertLines m ++ F.drop i := by
  have hRF : removePrior F = F := by
    rcases h with h | h
    · exact removePrior_of_no_end F h
    · exact removePrior_of_no_begin F h
  refine ⟨hRF, ?_, ?_⟩
  · have hstep := inject_eq_of_anchor m F i (by rw [hRF]; exact ha)
    rw [hRF] at hstep
    exact hstep
  · intro l hl
    rw [← List.take_append_drop i F] at hl
    rcases List.mem_append.mp hl with h1 | h2
    · exact List.mem_append.mpr (Or.inl (List.mem_append.mpr (Or.inl h1)))
    · exact List.mem_append.mpr (Or.inr h2)

/-- Witness for C9: a file with a stray begin marker and no end marker. -/
theorem c9_single_marker_witness :
    removePrior [BEGIN_MARK ++ "\n", "#endif\n"] = [BEGIN_MARK ++ "\n", "#endif\n"] ∧
    inject ⟨"h", "b", "t"⟩ [BEGIN_MARK ++ "\n", "#endif\n"]
      = Except.ok (([BEGIN_MARK ++ "\n", "#endif\n"] : List String).take 1
          ++ insertLines ⟨"h", "b", "t"⟩
          ++ ([BEGIN_MARK ++ "\n", "#endif\n"] : List String).drop 1) ∧
    ∀ l ∈ ([BEGIN_MARK ++ "\n", "#endif\n"] : List String),
      l ∈ ([BEGIN_MARK ++ "\n", "#endif\n"] : List String).take 1
          ++ insertLines ⟨"h", "b", "t"⟩
          ++ ([BEGIN_MARK ++ "\n", "#endif\n"] : List String).drop 1 :=
  c9_single_marker ⟨"h", "b", "t"⟩ [BEGIN_MARK ++ "\n", "#endif\n"] 1
    (by decide) (Or.inl (by decide))

/-- The removal step keeps the distance from the end of the file of a
last anchor that lies beyond the removed range (or of the anchor of an
untouched file). -/
theorem removePrior_anchor (F : List String) (iF : Nat)
    (haF : findLastAnchor F = some iF)
    (hrem : ∀ s e, scanMarkers F 0 none = (some s, some e) → e < iF) :
    ∃ iR, findLastAnchor (removePrior F) = some iR ∧
      iR < (removePrior F).length ∧
      (removePrior F).length - iR = F.length - iF := by
  obtain ⟨hFlt, hFp, hFafter⟩ := lastIdxSat_spec _ F iF haF
  rcases hscan : scanMarkers F 0 none with ⟨s?, e?⟩
  rcases s? with _ | s
  · have hRF : removePrior F = F := by unfold removePrior; rw [hscan]
    exact ⟨iF, by rw [hRF]; exact haF, by rw [hRF]; exact hFlt, by rw [hRF]⟩
  · rcases e? with _ | e
    · have hRF : removePrior F = F := by unfold removePrior; rw [hscan]
      exact ⟨iF, by rw [hRF]; exact haF, by rw [hRF]; exact hFlt, by rw [hRF]⟩
    · have he : e < iF := hrem s e hscan
      obtain ⟨k, hk, hklen, _, _, hstart⟩ := scanMarkers_spec F 0 none s e hscan
      have hse : s < e := by
        rcases hstart with ⟨jb, hjb1, hjb2, _, _⟩ | ⟨hst, _⟩
        · omega
        · exact absurd hst (by simp)
      have hel : e < F.length := by omega
      have hRF : removePrior F = F.take s ++ F.drop (e + 1) := by
        unfold removePrior; rw [hscan]
      have htake : (F.take s).length = s := List.length_take_of_le (by omega)
      have hdrop : lastIdxSat (fun l => pyStrip l == ANCHOR) (F.drop (e + 1))
          = some (iF - (e + 1)) := by
        apply lastIdxSat_construct
        · rw [List.length_drop]; omega
        · rw [getD_drop']
          have harith : e + 1 + (iF - (e + 1)) = iF := by omega
          rw [harith]; exact hFp
        · intro j h1 h2
          rw [List.length_drop] at h2
          rw [getD_drop']
          exact hFafter (e + 1 + j) (by omega) (by omega)
      have hR : lastIdxSat (fun l => pyStrip l == ANCHOR) (F.take s ++ F.drop (e + 1))
          = some (s + (iF - (e + 1))) := by
        rw [lastIdxSat_append, hdrop, htake]
      refine ⟨s + (iF - (e + 1)), ?_, ?_, ?_⟩
      · rw [hRF]
        exact hR
      · rw [hRF, List.length_append, htake, List.length_drop]
        omega
      · rw [hRF, List.length_append, htake, List.length_drop]
        omega

/-- C6 (amended): injection preserves the last anchor's line-count from
the end of the file whenever the removed prior-block range (if any)
lies strictly before that anchor; a prior block sitting after the last
anchor shifts it. -/
theorem c6_anchor_amended (m : Metadata) (F out : List String) (iF : Nat)
    (haF : findLastAnchor F = some iF)
    (hrem : ∀ s e, scanMarkers F 0 none = (some s, some e) → e < iF)
    (hok : inject m F = Except.ok out) :
    anchorDistFromEnd out = anchorDistFromEnd F := by
  obtain ⟨iR, haR, hlt, hdist⟩ := removePrior_anchor F iF haF hrem
  have hinj := inject_eq_of_anchor m F iR haR
  have hout : out
      = (removePrior F).take iR ++ insertLines m ++ (removePrior F).drop iR := by
    injection hok.symm.trans hinj
  have hAout : findLastAnchor out = some (iR + 5) := by
    rw [hout]; exact findLastAnchor_out m _ iR haR
  have hlen : out.length = (removePrior F).length + 5 := by
    rw [hout, List.length_append, List.length_append, insertLines_length,
        List.length_take_of_le (le_of_lt hlt), List.length_drop]
    omega
  unfold anchorDistFromEnd
  rw [hAout, haF]
  show some (out.length - (iR + 5)) = some (F.length - iF)
  exact congrArg some (by rw [hlen]; omega)

/-- Witness for C6: the prior block sits before the anchor, and the
anchor's distance from the end is unchanged by injection. -/
theorem c6_anchor_amended_witness :
    anchorDistFromEnd ["a\n", BEGIN_MARK ++ "\n", defLineHash "h" ++ "\n",
        defLineBranch "b" ++ "\n", defLineTs "t" ++ "\n", END_MARK ++ "\n", "#endif\n"]
      = anchorDistFromEnd ["a\n", BEGIN_MARK ++ "\n", "x\n", END_MARK ++ "\n",
          "#endif\n"] :=
  c6_anchor_amended ⟨"h", "b", "t"⟩
    ["a\n", BEGIN_MARK ++ "\n", "x\n", END_MARK ++ "\n", "#endif\n"]
    ["a\n", BEGIN_MARK ++ "\n", defLineHash "h" ++ "\n", defLineBranch "b" ++ "\n",
      defLineTs "t" ++ "\n", END_MARK ++ "\n", "#endif\n"] 4
    (by decide)
    (fun s e h => by
      have hc : scanMarkers ["a\n", BEGIN_MARK ++ "\n", "x\n", END_MARK ++ "\n",
          "#endif\n"] 0 none = (some 1, some 3) := by decide
      rw [hc] at h
      injection h with h1 h2
      injection h2 with h2
      omega)
    (by decide)

/-- C6 as stated is false: a (malformed) prior block lying after the
last anchor is removed, which changes the anchor's line-count from the
end of the file. -/
theorem c6_anchor_counterexample :
    inject ⟨"h", "b", "t"⟩
        ["a\n", "#endif\n", BEGIN_MARK ++ "\n", "x\n", END_MARK ++ "\n"]
      = Except.ok ["a\n", BEGIN_MARK ++ "\n", defLineHash "h" ++ "\n",
          defLineBranch "b" ++ "\n", defLineTs "t" ++ "\n", END_MARK ++ "\n",
          "#endif\n"] ∧
    anchorDistFromEnd ["a\n", "#endif\n", BEGIN_MARK ++ "\n", "x\n", END_MARK ++ "\n"]
      = some 4 ∧
    anchorDistFromEnd ["a\n", BEGIN_MARK ++ "\n", defLineHash "h" ++ "\n",
        defLineBranch "b" ++ "\n", defLineTs "t" ++ "\n", END_MARK ++ "\n", "#endif\n"]
      = some 1 := by
  exact ⟨by decide, by decide, by decide⟩

/-- C10 (amended): when an anchor remains after prior-block removal,
injection returns exactly the post-removal lines with the five fresh
block lines inserted before the last anchor (every kept line verbatim
and in order), the output is five lines longer than the post-removal
file, and the removal itself either deleted one contiguous range
bounded by the detected marker pair or nothing at all. -/
theorem c10_frame_amended (m : Metadata) (F : List String) (i : Nat)
    (ha : findLastAnchor (removePrior F) = some i) :
    inject m F = Except.ok
        ((removePrior F).take i ++ insertLines m ++ (removePrior F).drop i) ∧
    ((removePrior F).take i ++ insertLines m ++ (removePrior F).drop i).length
        = (removePrior F).length + 5 ∧
    ((∃ s e, scanMarkers F 0 none = (some s, some e) ∧ s < e ∧ e < F.length ∧
        removePrior F = F.take s ++ F.drop (e + 1) ∧
        (removePrior F).length = F.length - (e + 1 - s))
      ∨ (((scanMarkers F 0 none).1 = none ∨ (scanMarkers F 0 none).2 = none) ∧
          removePrior F = F)) := by
  obtain ⟨hlt, _, _⟩ := lastIdxSat_spec _ (removePrior F) i ha
  refine ⟨inject_eq_of_anchor m F i ha, ?_, ?_⟩
  · rw [List.length_append, List.length_append, insertLines_length,
        List.length_take_of_le (le_of_lt hlt), List.length_drop]
    omega
  · rcases hscan : scanMarkers F 0 none with ⟨s?, e?⟩
    rcases s? with _ | s
    · exact Or.inr ⟨Or.inl rfl, by unfold removePrior; rw [hscan]⟩
    · rcases e? with _ | e
      · exact Or.inr ⟨Or.inr rfl, by unfold removePrior; rw [hscan]⟩
      · left
        obtain ⟨k, hk, hklen, _, _, hstart⟩ := scanMarkers_spec F 0 none s e hscan
        have hse : s < e := by
          rcases hstart with ⟨jb, h1, h2, _, _⟩ | ⟨hst, _⟩
          · omega
          · exact absurd hst (by simp)
        have hel : e < F.length := by omega
        have hRF : removePrior F = F.take s ++ F.drop (e + 1) := by
          unfold removePrior; rw [hscan]
        refine ⟨s, e, rfl, hse, hel, hRF, ?_⟩
        rw [hRF, List.length_append, List.length_take_of_le (by omega), List.length_drop]
        omega

/-- Witness for C10 on a file holding a prior block before its anchor. -/
theorem c10_frame_amended_witness :
    inject ⟨"h", "b", "t"⟩ ["x\n", BEGIN_MARK ++ "\n", END_MARK ++ "\n", "#endif\n"]
      = Except.ok
        ((removePrior ["x\n", BEGIN_MARK ++ "\n", END_MARK ++ "\n", "#endif\n"]).take 1
          ++ insertLines ⟨"h", "b", "t"⟩
          ++ (removePrior ["x\n", BEGIN_MARK ++ "\n", END_MARK ++ "\n",
              "#endif\n"]).drop 1) ∧
    ((removePrior ["x\n", BEGIN_MARK ++ "\n", END_MARK ++ "\n", "#endif\n"]).take 1
        ++ insertLines ⟨"h", "b", "t"⟩
        ++ (removePrior ["x\n", BEGIN_MARK ++ "\n", END_MARK ++ "\n",
            "#endif\n"]).drop 1).length
      = (removePrior ["x\n", BEGIN_MARK ++ "\n", END_MARK ++ "\n",
          "#endif\n"]).length + 5 ∧
    ((∃ s e, scanMarkers ["x\n", BEGIN_MARK ++ "\n", END_MARK ++ "\n", "#endif\n"]
          0 none = (some s, some e) ∧ s < e ∧
        e < (["x\n", BEGIN_MARK ++ "\n", END_MARK ++ "\n",
            "#endif\n"] : List String).length ∧
        removePrior ["x\n", BEGIN_MARK ++ "\n", END_MARK ++ "\n", "#endif\n"]
          = (["x\n", BEGIN_MARK ++ "\n", END_MARK ++ "\n",
              "#endif\n"] : List String).take s
            ++ (["x\n", BEGIN_MARK ++ "\n", END_MARK ++ "\n",
                "#endif\n"] : List String).drop (e + 1) ∧
        (removePrior ["x\n", BEGIN_MARK ++ "\n", END_MARK ++ "\n",
            "#endif\n"]).length
          = (["x\n", BEGIN_MARK ++ "\n", END_MARK ++ "\n",
              "#endif\n"] : List String).length - (e + 1 - s))
      ∨ (((scanMarkers ["x\n", BEGIN_MARK ++ "\n", END_MARK ++ "\n", "#endif\n"]
            0 none).1 = none ∨
          (scanMarkers ["x\n", BEGIN_MARK ++ "\n", END_MARK ++ "\n", "#endif\n"]
            0 none).2 = none) ∧
          removePrior ["x\n", BEGIN_MARK ++ "\n", END_MARK ++ "\n", "#endif\n"]
            = ["x\n", BEGIN_MARK ++ "\n", END_MARK ++ "\n", "#endif\n"])) :=
  c10_frame_amended ⟨"h", "b", "t"⟩
    ["x\n", BEGIN_MARK ++ "\n", END_MARK ++ "\n", "#endif\n"] 1 (by decide)

/-- C10 as stated is false: a file whose only anchor line lies inside
the prior block loses it to the removal step, and injection then raises
instead of producing an output. -/
theorem c10_frame_counterexample :
    (∃ l ∈ ([BEGIN_MARK ++ "\n", "#endif\n", END_MARK ++ "\n"] : List String),
        pyStrip l = ANCHOR) ∧
    inject ⟨"h", "b", "t"⟩ [BEGIN_MARK ++ "\n", "#endif\n", END_MARK ++ "\n"]
      = Except.error "No #endif found in PIOConfig.h" := by
  exact ⟨⟨"#endif\n", by decide, by decide⟩, by decide⟩

/-- C8 (amended): injecting the scenario metadata into `"...\n#endif\n"`
yields the three definition lines in order, immediately followed by the
end-marker line and then the `#endif` line. -/
theorem c8_empty_prior_amended :
    inject ⟨"abc123", "main", "20240101_120000"⟩ ["...\n", "#endif\n"]
      = Except.ok ["...\n", BEGIN_MARK ++ "\n", defLineHash "abc123" ++ "\n",
          defLineBranch "main" ++ "\n", defLineTs "20240101_120000" ++ "\n",
          END_MARK ++ "\n", "#endif\n"] ∧
    [defLineHash "abc123" ++ "\n", defLineBranch "main" ++ "\n",
        defLineTs "20240101_120000" ++ "\n", END_MARK ++ "\n", "#endif\n"]
      <:+: ["...\n", BEGIN_MARK ++ "\n", defLineHash "abc123" ++ "\n",
        defLineBranch "main" ++ "\n", defLineTs "20240101_120000" ++ "\n",
        END_MARK ++ "\n", "#endif\n"] := by
  exact ⟨by decide, by decide⟩

/-- C8 as stated is false: the three definition lines are not
immediately followed by the `#endif` line — the end-marker line stands
between them (even the timestamp line alone is not adjacent to the
anchor). -/
theorem c8_empty_prior_counterexample :
    inject ⟨"abc123", "main", "20240101_120000"⟩ ["...\n", "#endif\n"]
      = Except.ok ["...\n", BEGIN_MARK ++ "\n", defLineHash "abc123" ++ "\n",
          defLineBranch "main" ++ "\n", defLineTs "20240101_120000" ++ "\n",
          END_MARK ++ "\n", "#endif\n"] ∧
    ¬ ([defLineHash "abc123" ++ "\n", defLineBranch "main" ++ "\n",
        defLineTs "20240101_120000" ++ "\n", "#endif\n"]
      <:+: ["...\n", BEGIN_MARK ++ "\n", defLineHash "abc123" ++ "\n",
        defLineBranch "main" ++ "\n", defLineTs "20240101_120000" ++ "\n",
        END_MARK ++ "\n", "#endif\n"]) ∧
    ¬ ([defLineTs "20240101_120000" ++ "\n", "#endif\n"]
      <:+: ["...\n", BEGIN_MARK ++ "\n", defLineHash "abc123" ++ "\n",
        defLineBranch "main" ++ "\n", defLineTs "20240101_120000" ++ "\n",
        END_MARK ++ "\n", "#endif\n"]) := by
  exact ⟨by decide, by decide, by decide⟩
